import Mathlib

/-!
Shallow embedding of the core of the tele-antig VS Code extension
(TrajectoryMonitor from src/trajectoryMonitor.ts, AntigravityBridge from
src/bridge.ts, LSClient from src/lsClient.ts), together with theorems
checking the natural-language specification against it.

Conventions:
- JavaScript strings are Lean `String`s; `text.trim().toLowerCase()` is
  modeled with `String.trim` and an ASCII `Char.toLower` map (all the
  strings the program compares are ASCII).
- Timestamps (`Date.now()` values, epoch milliseconds) are `Int`.
- `Set<number>` (insertion-ordered) is a `List Nat`; `Array.prototype.splice`
  at `indexOf` is `List.erase` (removal of the first occurrence).
- Fallible host calls (`LSClient.apiCall`) resolve to `Option` results:
  `none` models a failed network call (the source never rejects, it
  resolves `null`).
-/

namespace TeleAntig

/-- ASCII lower-casing of a string, modeling `String.prototype.toLowerCase`
on the ASCII strings the extension handles. -/
def jsToLower (s : String) : String :=
  String.mk (s.data.map Char.toLower)

/-- `text.trim().toLowerCase()` — the normalization used by the echo
suppressor (src/trajectoryMonitor.ts, markTelegramSent / isTelegramSent). -/
def normalizeSent (text : String) : String :=
  jsToLower text.trim

/-- `MAX_SENT_TEXTS = 5` (src/trajectoryMonitor.ts). -/
def MAX_SENT_TEXTS : Nat := 5

/-- `markTelegramSent(text)`: push the normalized text, then
`if (sentTexts.length > MAX_SENT_TEXTS) sentTexts.shift()`. -/
def markTelegramSent (text : String) (sentTexts : List String) : List String :=
  if (sentTexts ++ [normalizeSent text]).length > MAX_SENT_TEXTS then
    (sentTexts ++ [normalizeSent text]).tail
  else
    sentTexts ++ [normalizeSent text]

/-- `isTelegramSent(text)`: normalize, `indexOf`, and if found `splice` that
single occurrence out and return true; else false.  Returns the flag and
the updated `sentTexts` list. -/
def isTelegramSent (text : String) (sentTexts : List String) : Bool × List String :=
  if normalizeSent text ∈ sentTexts then
    (true, sentTexts.erase (normalizeSent text))
  else
    (false, sentTexts)

/-! ## Activity Tracker (src/bridge.ts) -/

/-- `ActivityState` of AntigravityBridge. -/
structure ActivityState where
  promptSentAt : Int
  hadActivity : Bool
  lastActivityAt : Int
  stallNotified : Bool
  stallNotifyCount : Nat
deriving DecidableEq, Repr

/-- The all-zero record the bridge constructor starts from. -/
def activityInit : ActivityState :=
  { promptSentAt := 0, hadActivity := false, lastActivityAt := 0,
    stallNotified := false, stallNotifyCount := 0 }

/-- `STALL_THRESHOLD_MS = 12000` (src/bridge.ts). -/
def STALL_THRESHOLD_MS : Int := 12000

/-- `MAX_STALL_NOTIFICATIONS = 3` (src/bridge.ts). -/
def MAX_STALL_NOTIFICATIONS : Nat := 3

/-- `trackActivity()` at clock value `now` (`Date.now()`): no-op when no
prompt is outstanding; otherwise records the activity time, sets
`hadActivity`, and clears `stallNotified`. -/
def trackActivity (now : Int) (a : ActivityState) : ActivityState :=
  if a.promptSentAt = 0 then a
  else { a with lastActivityAt := now, hadActivity := true, stallNotified := false }

/-- `checkForStall()` at clock value `now`.  Returns the new state and
whether a `step_request` event was emitted this call. -/
def checkForStall (now : Int) (a : ActivityState) : ActivityState × Bool :=
  if a.promptSentAt = 0 then (a, false)
  else if a.hadActivity = false then (a, false)
  else if a.stallNotified then (a, false)
  else if a.stallNotifyCount ≥ MAX_STALL_NOTIFICATIONS then (a, false)
  else
    let silenceMs := now - a.lastActivityAt
    if silenceMs ≥ STALL_THRESHOLD_MS then
      ({ a with stallNotified := true, stallNotifyCount := a.stallNotifyCount + 1 }, true)
    else (a, false)

/-- `resetActivityTracking()` at clock value `now` (start of a prompt). -/
def resetActivityTracking (now : Int) : ActivityState :=
  { promptSentAt := now, hadActivity := false, lastActivityAt := 0,
    stallNotified := false, stallNotifyCount := 0 }

/-- `clearActivityTracking()` (prompt completion: new conversation or reject). -/
def clearActivityTracking : ActivityState :=
  { promptSentAt := 0, hadActivity := false, lastActivityAt := 0,
    stallNotified := false, stallNotifyCount := 0 }

/-- One call to the activity tracker inside a single outstanding prompt:
either `trackActivity` or `checkForStall`, each at some clock value. -/
inductive ActivityOp where
  | track (now : Int)
  | check (now : Int)
deriving DecidableEq, Repr

/-- Run a sequence of tracker calls, counting the `step_request` emissions
made by `checkForStall`. -/
def runActivityOps : ActivityState → List ActivityOp → ActivityState × Nat
  | a, [] => (a, 0)
  | a, ActivityOp.track now :: ops => runActivityOps (trackActivity now a) ops
  | a, ActivityOp.check now :: ops =>
    let r := checkForStall now a
    let rest := runActivityOps r.1 ops
    (rest.1, (if r.2 then 1 else 0) + rest.2)

/-- Any operation on the bridge's activity record, including the lifecycle
brackets. -/
inductive BridgeOp where
  | track (now : Int)
  | check (now : Int)
  | reset (now : Int)
  | clear
deriving DecidableEq, Repr

/-- Apply one bridge operation to the activity record (emissions dropped). -/
def applyBridgeOp (a : ActivityState) : BridgeOp → ActivityState
  | BridgeOp.track now => trackActivity now a
  | BridgeOp.check now => (checkForStall now a).1
  | BridgeOp.reset now => resetActivityTracking now
  | BridgeOp.clear => clearActivityTracking

/-- Run a sequence of bridge operations from a starting record. -/
def runBridgeOps : ActivityState → List BridgeOp → ActivityState
  | a, [] => a
  | a, op :: ops => runBridgeOps (applyBridgeOp a op) ops

/-! ## Context-Flag Poller (src/bridge.ts, pollContextKeys) -/

/-- The per-prompt edge-detection state of `pollContextKeys`. -/
structure ContextPollState where
  prevContextKeyState : Bool
  contextNotifiedForThisPrompt : Bool
deriving DecidableEq, Repr

/-- Initial state: bridge construction, `resetActivityTracking`, and
`clearActivityTracking` all set both flags false. -/
def contextPollInit : ContextPollState :=
  { prevContextKeyState := false, contextNotifiedForThisPrompt := false }

/-- One tick of `pollContextKeys`, given the aggregate value `anyActive`
(whether any polled context key read true this tick).  Returns the new
state and whether a `step_request` was emitted. -/
def pollContextKeysTick (st : ContextPollState) (anyActive : Bool) :
    ContextPollState × Bool :=
  let emitNow := anyActive && !st.prevContextKeyState && !st.contextNotifiedForThisPrompt
  let notified :=
    if emitNow then true
    else if !anyActive && st.prevContextKeyState then false
    else st.contextNotifiedForThisPrompt
  ({ prevContextKeyState := anyActive, contextNotifiedForThisPrompt := notified }, emitNow)

/-- Run a sequence of ticks, counting emissions. -/
def runContextTicks : ContextPollState → List Bool → ContextPollState × Nat
  | st, [] => (st, 0)
  | st, b :: bs =>
    let r := pollContextKeysTick st b
    let rest := runContextTicks r.1 bs
    (rest.1, (if r.2 then 1 else 0) + rest.2)

end TeleAntig

namespace TeleAntig

/-! ## Lemmas for the Activity Tracker -/

/-- Case analysis for `checkForStall`: either the call is a no-op with no
emission, or the notification cap was not yet reached, the `stallNotified`
flag is set, and the count increments with one emission. -/
theorem checkForStall_spec (now : Int) (a : ActivityState) :
    checkForStall now a = (a, false) ∨
    (a.stallNotifyCount < MAX_STALL_NOTIFICATIONS ∧
     a.promptSentAt ≠ 0 ∧ a.hadActivity = true ∧
     checkForStall now a =
       ({ a with stallNotified := true, stallNotifyCount := a.stallNotifyCount + 1 }, true)) := by
  unfold checkForStall
  by_cases h1 : a.promptSentAt = 0
  · left; simp [h1]
  by_cases h2 : a.hadActivity = false
  · left; simp [h1, h2]
  by_cases h3 : a.stallNotified = true
  · left; simp [h1, h2, h3]
  by_cases h4 : a.stallNotifyCount ≥ MAX_STALL_NOTIFICATIONS
  · left; simp [h1, h2, h3, h4]
  by_cases h5 : now - a.lastActivityAt ≥ STALL_THRESHOLD_MS
  · right
    refine ⟨by omega, h1, by simpa using h2, ?_⟩
    simp [h1, h2, h3, h4, h5]
  · left; simp [h1, h2, h3, h4, h5]

/-- Emission bound for a run of track/check calls: the run can emit at most
the remaining budget `MAX_STALL_NOTIFICATIONS - stallNotifyCount`. -/
theorem runActivityOps_le (ops : List ActivityOp) :
    ∀ a : ActivityState,
      (runActivityOps a ops).2 ≤ MAX_STALL_NOTIFICATIONS - a.stallNotifyCount := by
  induction ops with
  | nil => intro a; simp [runActivityOps]
  | cons op ops ih =>
    intro a
    cases op with
    | track now =>
      have h := ih (trackActivity now a)
      have hcount : (trackActivity now a).stallNotifyCount = a.stallNotifyCount := by
        unfold trackActivity; split <;> rfl
      simpa [runActivityOps, hcount] using h
    | check now =>
      rcases checkForStall_spec now a with hno | ⟨hlt, _, _, hyes⟩
      · have h := ih a
        simp only [runActivityOps, hno]
        simpa using h
      · have h := ih { a with stallNotified := true,
                              stallNotifyCount := a.stallNotifyCount + 1 }
        simp only [runActivityOps, hyes]
        simp only [MAX_STALL_NOTIFICATIONS] at h hlt ⊢
        simp only [if_true]
        omega

/-- C2: For every sequence of `trackActivity` and `checkForStall` calls
within one outstanding prompt (i.e. after a `resetActivityTracking` and
before the next reset/clear), `checkForStall` emits at most
`MAX_STALL_NOTIFICATIONS` (3) `step_request` events. -/
theorem claim_C2_stall_notification_cap (now : Int) (ops : List ActivityOp) :
    (runActivityOps (resetActivityTracking now) ops).2 ≤ MAX_STALL_NOTIFICATIONS := by
  have h := runActivityOps_le ops (resetActivityTracking now)
  simp only [resetActivityTracking] at h
  simpa using h

/-- Every bridge operation preserves the `ActivityState` invariant that
`stallNotified` implies `hadActivity` and an outstanding prompt. -/
theorem applyBridgeOp_inv (a : ActivityState) (op : BridgeOp)
    (h : a.stallNotified = true → a.hadActivity = true ∧ a.promptSentAt ≠ 0) :
    (applyBridgeOp a op).stallNotified = true →
      (applyBridgeOp a op).hadActivity = true ∧ (applyBridgeOp a op).promptSentAt ≠ 0 := by
  cases op with
  | track now =>
    simp only [applyBridgeOp, trackActivity]
    split
    · exact h
    · intro hfalse; simp at hfalse
  | check now =>
    rcases checkForStall_spec now a with hno | ⟨_, hp, ha, hyes⟩
    · simp only [applyBridgeOp, hno]; exact h
    · simp only [applyBridgeOp, hyes]
      intro _
      exact ⟨ha, hp⟩
  | reset now =>
    simp only [applyBridgeOp, resetActivityTracking]
    intro hfalse; simp at hfalse
  | clear =>
    simp only [applyBridgeOp, clearActivityTracking]
    intro hfalse; simp at hfalse

/-- C8: After every sequence of operations on the activity tracker from the
initial state, `stallNotified` (the notified flag) is true only if
`hadActivity` is true and `promptSentAt != 0`; and `clearActivityTracking`
resets the record to all-zero (the constructor's initial record). -/
theorem claim_C8_activity_invariant (ops : List BridgeOp) :
    ((runBridgeOps activityInit ops).stallNotified = true →
      (runBridgeOps activityInit ops).hadActivity = true ∧
      (runBridgeOps activityInit ops).promptSentAt ≠ 0) ∧
    (∀ a : ActivityState, applyBridgeOp a BridgeOp.clear = activityInit) := by
  constructor
  · have main : ∀ (l : List BridgeOp) (a : ActivityState),
        (a.stallNotified = true → a.hadActivity = true ∧ a.promptSentAt ≠ 0) →
        ((runBridgeOps a l).stallNotified = true →
          (runBridgeOps a l).hadActivity = true ∧ (runBridgeOps a l).promptSentAt ≠ 0) := by
      intro l
      induction l with
      | nil => intro a h; simpa [runBridgeOps] using h
      | cons op l ih =>
        intro a h
        simpa [runBridgeOps] using ih (applyBridgeOp a op) (applyBridgeOp_inv a op h)
    exact main ops activityInit (by intro hfalse; simp [activityInit] at hfalse)
  · intro a
    simp [applyBridgeOp, clearActivityTracking, activityInit]

/-- Witness for C8 at a concrete run: after a prompt, an activity signal,
and a stalled check, the notified flag is set and the invariant's
conclusion holds. -/
theorem claim_C8_activity_invariant_witness :
    (runBridgeOps activityInit
      [BridgeOp.reset 5, BridgeOp.track 6, BridgeOp.check 20000]).hadActivity = true ∧
    (runBridgeOps activityInit
      [BridgeOp.reset 5, BridgeOp.track 6, BridgeOp.check 20000]).promptSentAt ≠ 0 :=
  (claim_C8_activity_invariant
    [BridgeOp.reset 5, BridgeOp.track 6, BridgeOp.check 20000]).1 (by decide)

/-! ## Lemmas for the Context-Flag Poller -/

/-- Splitting a tick sequence splits the emission count. -/
theorem runContextTicks_append (l1 l2 : List Bool) :
    ∀ st : ContextPollState,
      runContextTicks st (l1 ++ l2) =
        ((runContextTicks (runContextTicks st l1).1 l2).1,
         (runContextTicks st l1).2 + (runContextTicks (runContextTicks st l1).1 l2).2) := by
  induction l1 with
  | nil => intro st; simp [runContextTicks]
  | cons b bs ih =>
    intro st
    simp only [List.cons_append, List.append_eq, runContextTicks, ih, Prod.mk.injEq]
    refine ⟨?_, ?_⟩
    · trivial
    · omega

/-- A run of false-aggregate ticks emits nothing; it resets `prev` and
clears the notified flag exactly when `prev` was true. -/
theorem runContextTicks_false (k : Nat) :
    ∀ p n : Bool,
      runContextTicks ⟨p, n⟩ (List.replicate (k + 1) false) =
        (⟨false, n && !p⟩, 0) := by
  induction k with
  | zero =>
    intro p n
    cases p <;> cases n <;> simp [runContextTicks, pollContextKeysTick]
  | succ k ih =>
    intro p n
    have step : runContextTicks ⟨p, n⟩ (List.replicate (k + 2) false) =
        runContextTicks ⟨false, n && !p⟩ (List.replicate (k + 1) false) := by
      cases p <;> cases n <;>
        simp [List.replicate_succ, runContextTicks, pollContextKeysTick]
    rw [step, ih]
    cases p <;> cases n <;> simp

/-- From a satisfied waiting episode (prev true, already notified), further
true-aggregate ticks emit nothing and change nothing. -/
theorem runContextTicks_true_sat (k : Nat) :
    runContextTicks ⟨true, true⟩ (List.replicate k true) = (⟨true, true⟩, 0) := by
  induction k with
  | zero => simp [runContextTicks]
  | succ k ih =>
    simp [List.replicate_succ, runContextTicks, pollContextKeysTick, ih]

/-- From a fresh state, a run of true-aggregate ticks emits exactly one
event (on the false-to-true edge) and marks the episode notified. -/
theorem runContextTicks_true_fresh (k : Nat) :
    runContextTicks ⟨false, false⟩ (List.replicate (k + 1) true) = (⟨true, true⟩, 1) := by
  have step : runContextTicks ⟨false, false⟩ (List.replicate (k + 1) true) =
      let rest := runContextTicks ⟨true, true⟩ (List.replicate k true)
      (rest.1, 1 + rest.2) := by
    simp [List.replicate_succ, runContextTicks, pollContextKeysTick]
  rw [step, runContextTicks_true_sat]
  rfl

/-- C3: For every sequence of context-flag poll ticks whose aggregate flag
value is false, then true, then false, then true (runs of arbitrary
positive length), the poller emits exactly two `step_request` events — one
per false-to-true transition, none while the aggregate is held true —
because the per-episode notified flag is set on emission and cleared only
when the aggregate transitions back to false. -/
theorem claim_C3_context_flag_two_events (a b c d : Nat) :
    (runContextTicks contextPollInit
      (List.replicate (a + 1) false ++ List.replicate (b + 1) true ++
       List.replicate (c + 1) false ++ List.replicate (d + 1) true)).2 = 2 := by
  have h1 := runContextTicks_false a false false
  have h2 := runContextTicks_true_fresh b
  have h3 := runContextTicks_false c true true
  have h4 := runContextTicks_true_fresh d
  simp only [contextPollInit]
  rw [runContextTicks_append, runContextTicks_append, runContextTicks_append]
  rw [h1]
  simp only [Bool.not_false, Bool.and_true] at h1 ⊢
  rw [h2]
  simp only []
  rw [h3]
  simp only [Bool.not_true, Bool.and_false] at h3 ⊢
  rw [h4]
  rfl

/-! ## Echo Suppressor theorems -/

/-- C5: The Echo Suppressor: `markTelegramSent` normalizes by trim plus
lowercase and pushes into a FIFO of capacity `MAX_SENT_TEXTS = 5`,
evicting the oldest entry on overflow; `isTelegramSent` normalizes, and if
present removes exactly the first occurrence and returns true, else
returns false; consequently a text recorded once is suppressed exactly
once — a second lookup of the identical text returns false. -/
theorem claim_C5_echo_one_shot (text : String) (st : List String)
    (hnotin : normalizeSent text ∉ st) :
    (st.length ≤ MAX_SENT_TEXTS → (markTelegramSent text st).length ≤ MAX_SENT_TEXTS) ∧
    (st.length = MAX_SENT_TEXTS →
      markTelegramSent text st = st.tail ++ [normalizeSent text]) ∧
    (∀ s : List String, normalizeSent text ∈ s →
      isTelegramSent text s = (true, s.erase (normalizeSent text))) ∧
    (∀ s : List String, normalizeSent text ∉ s →
      isTelegramSent text s = (false, s)) ∧
    (isTelegramSent text (markTelegramSent text st)).1 = true ∧
    (isTelegramSent text (isTelegramSent text (markTelegramSent text st)).2).1 = false := by
  have hcount0 : st.count (normalizeSent text) = 0 := List.count_eq_zero.mpr hnotin
  have hlookup_pos : ∀ s : List String, normalizeSent text ∈ s →
      isTelegramSent text s = (true, s.erase (normalizeSent text)) := by
    intro s hmem
    simp [isTelegramSent, hmem]
  have hlookup_neg : ∀ s : List String, normalizeSent text ∉ s →
      isTelegramSent text s = (false, s) := by
    intro s hmem
    simp [isTelegramSent, hmem]
  have hcount1 : (markTelegramSent text st).count (normalizeSent text) = 1 := by
    unfold markTelegramSent
    split
    · rename_i hlen
      cases st with
      | nil => simp [MAX_SENT_TEXTS] at hlen
      | cons h t =>
        have hnotin_t : normalizeSent text ∉ t := by
          intro hmem; exact hnotin (List.mem_cons_of_mem h hmem)
        simp [List.count_append, List.count_eq_zero.mpr hnotin_t]
    · simp [List.count_append, hcount0]
  have hmem1 : normalizeSent text ∈ markTelegramSent text st := by
    have : 0 < (markTelegramSent text st).count (normalizeSent text) := by omega
    exact List.count_pos_iff.mp this
  refine ⟨?_, ?_, hlookup_pos, hlookup_neg, ?_, ?_⟩
  · intro hlen
    unfold markTelegramSent
    split
    · simp; omega
    · rename_i hle
      simp at hle ⊢
      omega
  · intro hlen
    unfold markTelegramSent
    have hgt : (st ++ [normalizeSent text]).length > MAX_SENT_TEXTS := by
      simp [hlen]
    rw [if_pos hgt, List.tail_append]
    have hne : st.isEmpty = false := by
      cases st with
      | nil => simp [MAX_SENT_TEXTS] at hlen
      | cons h t => rfl
    simp [hne]
  · rw [hlookup_pos _ hmem1]
  · rw [hlookup_pos _ hmem1]
    have hcount_erased :
        ((markTelegramSent text st).erase (normalizeSent text)).count (normalizeSent text) = 0 := by
      rw [List.count_erase_self, hcount1]
    have hnotin_erased :
        normalizeSent text ∉ (markTelegramSent text st).erase (normalizeSent text) :=
      List.count_eq_zero.mp hcount_erased
    rw [hlookup_neg _ hnotin_erased]

/-- Witness for C5 at a concrete input: recording `" Hello "` into an
empty log suppresses `"hello"` exactly once. -/
theorem claim_C5_echo_one_shot_witness :
    (isTelegramSent " Hello " (markTelegramSent " Hello " [])).1 = true ∧
    (isTelegramSent " Hello "
      (isTelegramSent " Hello " (markTelegramSent " Hello " [])).2).1 = false :=
  ⟨(claim_C5_echo_one_shot " Hello " [] (by decide)).2.2.2.2.1,
   (claim_C5_echo_one_shot " Hello " [] (by decide)).2.2.2.2.2⟩

/-! ## Event dispatch (TrajectoryMonitor.emit / AntigravityBridge.emit) -/

/-- The semantic event taxonomy of the Trajectory Monitor
(src/trajectoryMonitor.ts, TrajectoryEvent). -/
inductive TrajectoryEventType where
  | agent_response
  | gui_message
  | step_request
deriving DecidableEq, Repr

/-- A Trajectory Monitor event: type tag, free-text content, and the
`Date.now()` timestamp at emission. -/
structure TrajectoryEvent where
  type : TrajectoryEventType
  content : String
  timestamp : Int
deriving DecidableEq, Repr

/-- A registered listener: its registration identity and its behavior,
which may throw (`Except.error`) when invoked on an event. -/
structure EventListener where
  id : Nat
  behavior : TrajectoryEvent → Except String Unit

/-- One observable outcome of invoking a listener during `emit`: either a
normal delivery, or the catch branch logging the listener's exception. -/
inductive EmitOutcome where
  | delivered (id : Nat)
  | listenerError (id : Nat) (msg : String)
deriving DecidableEq, Repr

/-- The registration id an outcome belongs to. -/
def EmitOutcome.listener : EmitOutcome → Nat
  | EmitOutcome.delivered i => i
  | EmitOutcome.listenerError i _ => i

/-- `emit(event)`: `for (const listener of listeners) try { listener(event) }
catch (e) { log }` — invoked on each registered listener in order; a throw
is caught and logged, never rethrown (the function is total). -/
def emitDispatch : List EventListener → TrajectoryEvent → List EmitOutcome
  | [], _ => []
  | l :: ls, ev =>
    (match l.behavior ev with
     | Except.ok _ => EmitOutcome.delivered l.id
     | Except.error e => EmitOutcome.listenerError l.id e) :: emitDispatch ls ev

/-- C10: `emit` invokes each registered listener exactly once, in
registration order, catching any exception a listener throws: the outcome
list covers every listener in order (so a throwing listener does not
prevent delivery to subsequent listeners), and dispatch over a
concatenation of registrations is the concatenation of dispatches (an
error in an earlier segment cannot affect a later one); `emitDispatch`
itself is a total function, so no exception propagates to the emitting
poll/classify path. -/
theorem claim_C10_emit_isolated_listeners (ev : TrajectoryEvent) :
    (∀ ls : List EventListener,
      (emitDispatch ls ev).map EmitOutcome.listener = ls.map EventListener.id) ∧
    (∀ ls1 ls2 : List EventListener,
      emitDispatch (ls1 ++ ls2) ev = emitDispatch ls1 ev ++ emitDispatch ls2 ev) := by
  constructor
  · intro ls
    induction ls with
    | nil => rfl
    | cons l ls ih =>
      simp only [emitDispatch, List.map_cons, ih]
      cases l.behavior ev <;> simp [EmitOutcome.listener]
  · intro ls1 ls2
    induction ls1 with
    | nil => rfl
    | cons l ls ih =>
      simp only [List.cons_append, List.append_eq, emitDispatch, ih]

/-! ## JSON values and a model of the host `JSON.parse` builtin

`extractNotifyMessage` calls the JavaScript `JSON.parse` builtin (a host
primitive, not repository code).  It is modeled here by an executable
recursive-descent parser over the JSON fragment the notify payloads use
(null, booleans, integer numbers, strings with the common escapes,
arrays, objects); on this fragment it agrees with `JSON.parse`, and any
input it rejects is rejected by raising — which the source catches,
returning null. -/

/-- Parsed JSON values. -/
inductive Json where
  | null
  | bool (b : Bool)
  | num (n : Int)
  | str (s : String)
  | arr (elems : List Json)
  | obj (fields : List (String × Json))
deriving Repr

/-- The `\x7b` character (object opener). -/
def braceOpen : Char := Char.ofNat 123

/-- The `\x7d` character (object closer). -/
def braceClose : Char := Char.ofNat 125

/-- Drop leading JSON whitespace. -/
def skipWs : List Char → List Char
  | [] => []
  | c :: rest =>
    if c = ' ' ∨ c = '\t' ∨ c = '\n' ∨ c = '\r' then skipWs rest else c :: rest

/-- Parse the body of a string literal (after the opening quote), handling
the common escapes; returns the decoded characters and the remainder. -/
def parseStringBody : List Char → Option (List Char × List Char)
  | [] => none
  | c :: rest =>
    if c = '"' then some ([], rest)
    else if c = '\\' then
      match rest with
      | [] => none
      | e :: rest2 =>
        (if e = 'n' then some '\n'
         else if e = 't' then some '\t'
         else if e = 'r' then some '\r'
         else if e = '"' then some '"'
         else if e = '\\' then some '\\'
         else if e = '/' then some '/'
         else none).bind fun d =>
          (parseStringBody rest2).map fun p => (d :: p.1, p.2)
    else (parseStringBody rest).map fun p => (c :: p.1, p.2)

/-- Parse a maximal nonempty run of decimal digits. -/
def parseNatNum (cs : List Char) : Option (Nat × List Char) :=
  let ds := cs.takeWhile Char.isDigit
  if ds = [] then none
  else some (ds.foldl (fun acc c => acc * 10 + (c.toNat - 48)) 0, cs.dropWhile Char.isDigit)

/-- Parse an (integer) JSON number. -/
def parseNumber (cs : List Char) : Option (Int × List Char) :=
  match cs with
  | '-' :: rest => (parseNatNum rest).map fun p => (-(p.1 : Int), p.2)
  | _ => (parseNatNum cs).map fun p => ((p.1 : Int), p.2)

mutual

/-- Fueled JSON value parser (the fuel bounds the nesting/width and is set
above the input length by `jsonParse`). -/
def parseValue : Nat → List Char → Option (Json × List Char)
  | 0, _ => none
  | Nat.succ fuel, cs =>
    match skipWs cs with
    | [] => none
    | c :: rest =>
      if c = 'n' then
        if rest.take 3 = ['u', 'l', 'l'] then some (Json.null, rest.drop 3) else none
      else if c = 't' then
        if rest.take 3 = ['r', 'u', 'e'] then some (Json.bool true, rest.drop 3) else none
      else if c = 'f' then
        if rest.take 4 = ['a', 'l', 's', 'e'] then some (Json.bool false, rest.drop 4) else none
      else if c = '"' then
        (parseStringBody rest).map fun p => (Json.str (String.mk p.1), p.2)
      else if c = braceOpen then
        match skipWs rest with
        | c2 :: rest2 =>
          if c2 = braceClose then some (Json.obj [], rest2)
          else (parseMembers fuel (c2 :: rest2)).map fun p => (Json.obj p.1, p.2)
        | [] => none
      else if c = '[' then
        match skipWs rest with
        | c2 :: rest2 =>
          if c2 = ']' then some (Json.arr [], rest2)
          else (parseElements fuel (c2 :: rest2)).map fun p => (Json.arr p.1, p.2)
        | [] => none
      else if c = '-' ∨ c.isDigit then
        (parseNumber (c :: rest)).map fun p => (Json.num p.1, p.2)
      else none

/-- Fueled parser for a nonempty object member list up to the closing
brace. -/
def parseMembers : Nat → List Char → Option (List (String × Json) × List Char)
  | 0, _ => none
  | Nat.succ fuel, cs =>
    match skipWs cs with
    | c :: rest =>
      if c = '"' then
        match parseStringBody rest with
        | some (keyChars, afterKey) =>
          match skipWs afterKey with
          | c2 :: rest2 =>
            if c2 = ':' then
              match parseValue fuel rest2 with
              | some (v, afterVal) =>
                match skipWs afterVal with
                | c3 :: rest3 =>
                  if c3 = ',' then
                    (parseMembers fuel rest3).map fun p =>
                      ((String.mk keyChars, v) :: p.1, p.2)
                  else if c3 = braceClose then
                    some ([(String.mk keyChars, v)], rest3)
                  else none
                | [] => none
              | none => none
            else none
          | [] => none
        | none => none
      else none
    | [] => none

/-- Fueled parser for a nonempty array element list up to the closing
bracket. -/
def parseElements : Nat → List Char → Option (List Json × List Char)
  | 0, _ => none
  | Nat.succ fuel, cs =>
    match parseValue fuel cs with
    | some (v, afterVal) =>
      match skipWs afterVal with
      | c :: rest =>
        if c = ',' then (parseElements fuel rest).map fun p => (v :: p.1, p.2)
        else if c = ']' then some ([v], rest)
        else none
      | [] => none
    | none => none

end

/-- `JSON.parse`: parse a complete JSON document; any trailing
non-whitespace is an error. -/
def jsonParse (s : String) : Option Json :=
  match parseValue (s.length + 2) s.data with
  | some (j, rest) => if skipWs rest = [] then some j else none
  | none => none

/-- JavaScript property access `obj[key]` on a parsed JSON value: for an
object the last binding of the key wins (as in `JSON.parse`); anything
else (including a missing key, i.e. `undefined`) is `none`. -/
def jsGet (j : Json) (key : String) : Option Json :=
  match j with
  | Json.obj fields => (fields.reverse.find? fun f => f.1 == key).map Prod.snd
  | _ => none

/-- JavaScript truthiness of a JSON value (`undefined`/`null`, `false`,
`0`, and `""` are falsy; objects and arrays are truthy). -/
def jsTruthy : Json → Bool
  | Json.null => false
  | Json.bool b => b
  | Json.num n => decide (n ≠ 0)
  | Json.str s => decide (s ≠ "")
  | Json.arr _ => true
  | Json.obj _ => true

/-- Property access with `undefined` collapsed into `Json.null` (both are
falsy, which is all the source distinguishes). -/
def jsField (args : Json) (key : String) : Json :=
  (jsGet args key).getD Json.null

mutual

/-- The JavaScript string coercion of a JSON value.  In the protocol the
notify payload's message field is a string (the TS signature returns
`string | null`), so only the `str` case is exercised; the other cases
follow the JS `String(...)` coercion. -/
def jsonToContent : Json → String
  | Json.str s => s
  | Json.null => "null"
  | Json.bool true => "true"
  | Json.bool false => "false"
  | Json.num n => toString n
  | Json.arr elems => String.intercalate "," (jsonToContentList elems)
  | Json.obj _ => "[object Object]"

/-- String coercions of a list of JSON values. -/
def jsonToContentList : List Json → List String
  | [] => []
  | j :: rest => jsonToContent j :: jsonToContentList rest

end

/-- `extractNotifyMessage(argumentsJson)`:
`try { const args = JSON.parse(argumentsJson); return args.Message ||
args.message || null } catch { return null }` — the first truthy of the
`Message` then `message` fields, else null; parse failure yields null. -/
def extractNotifyMessage (argumentsJson : String) : Option String :=
  match jsonParse argumentsJson with
  | none => none
  | some args =>
    if jsTruthy (jsField args "Message") then some (jsonToContent (jsField args "Message"))
    else if jsTruthy (jsField args "message") then some (jsonToContent (jsField args "message"))
    else none

/-- Modelled from the spec: the spec's wording "extract a message field
(case-insensitive key)" as a definition — the first truthy field whose
key lower-cases to "message".  Compared against `extractNotifyMessage`,
the definition embedded from the source. -/
def extractNotifyMessageSpecCI (argumentsJson : String) : Option String :=
  match jsonParse argumentsJson with
  | none => none
  | some args =>
    match args with
    | Json.obj fields =>
      match fields.find? fun f => jsToLower f.1 == "message" && jsTruthy f.2 with
      | some f => some (jsonToContent f.2)
      | none => none
    | _ => none

/-! ## Trajectory steps (src/lsClient.ts interfaces, modeled fields) -/

/-- A tool call inside a planner response or step metadata. -/
structure ToolCall where
  id : String := ""
  name : String := ""
  argumentsJson : String := ""
deriving DecidableEq, Repr

/-- The step metadata fields the monitor reads. -/
structure StepMetadata where
  toolCall : Option ToolCall := none
deriving DecidableEq, Repr

/-- `userInput` payload (fields the monitor reads). -/
structure UserInputInfo where
  userResponse : Option String := none
deriving DecidableEq, Repr

/-- `plannerResponse` payload (fields the monitor reads). -/
structure PlannerResponseInfo where
  response : Option String := none
  toolCalls : Option (List ToolCall) := none
deriving DecidableEq, Repr

/-- `notifyUser` payload (fields the monitor reads). -/
structure NotifyUserInfo where
  message : Option String := none
deriving DecidableEq, Repr

/-- `runCommand` payload (fields the monitor reads). -/
structure RunCommandInfo where
  commandLine : Option String := none
  command : Option String := none
deriving DecidableEq, Repr

/-- `openBrowserUrl` payload. -/
structure OpenBrowserUrlInfo where
  url : Option String := none
deriving DecidableEq, Repr

/-- `mcp` payload (fields the monitor reads). -/
structure McpInfo where
  toolName : Option String := none
  name : Option String := none
  serverName : Option String := none
deriving DecidableEq, Repr

/-- `filePermission` payload (fields the monitor reads). -/
structure FilePermissionInfo where
  absolutePathUri : Option String := none
  path : Option String := none
deriving DecidableEq, Repr

/-- `readUrlContent` payload. -/
structure ReadUrlContentInfo where
  url : Option String := none
deriving DecidableEq, Repr

/-- One conversation step.  The source's duck-typed optional sub-kind
fields are `Option` payloads; sub-kinds whose payload content the monitor
never reads are presence booleans. -/
structure TrajectoryStep where
  type : String := ""
  status : String := ""
  metadata : Option StepMetadata := none
  userInput : Option UserInputInfo := none
  plannerResponse : Option PlannerResponseInfo := none
  notifyUser : Option NotifyUserInfo := none
  runCommand : Option RunCommandInfo := none
  openBrowserUrl : Option OpenBrowserUrlInfo := none
  executeBrowserJavascript : Bool := false
  captureBrowserScreenshot : Bool := false
  browserAction : Bool := false
  browserSubagent : Bool := false
  mcp : Option McpInfo := none
  readUrlContent : Option ReadUrlContentInfo := none
  sendCommandInput : Bool := false
  filePermission : Option FilePermissionInfo := none
  runExtensionCode : Bool := false
  deploy : Bool := false
  openBrowserSetup : Bool := false
  confirmBrowserSetup : Bool := false
deriving DecidableEq, Repr

/-- `isWaitingStatus(status)` (src/trajectoryMonitor.ts): the status field
may arrive as the enum name or as the numeric value 9 (here, its JSON
string form). -/
def isWaitingStatus (status : String) : Bool :=
  status == "CORTEX_STEP_STATUS_WAITING" || status == "9"

/-- Substring search over character lists (used to model `RegExp.test` for
a literal pattern). -/
def listContainsSub (pat : List Char) : List Char → Bool
  | [] => decide (pat = [])
  | c :: rest => pat.isPrefixOf (c :: rest) || listContainsSub pat rest

/-- `AUTO_APPROVE_PATTERN.test(text)` — the case-insensitive literal
pattern `/system-generated message/i`. -/
def autoApproveTest (text : String) : Bool :=
  listContainsSub "system-generated message".data (jsToLower text).data

/-! ## Step classification (src/trajectoryMonitor.ts handlers) -/

/-- `handleUserInput(step)`: ignore missing/empty text and auto-approve
system messages; consume a matching echo-suppressor entry without an
event; otherwise emit `gui_message`.  Returns the events and the updated
`sentTexts` log (which `isTelegramSent` may consume from). -/
def handleUserInput (now : Int) (step : TrajectoryStep) (sentTexts : List String) :
    List TrajectoryEvent × List String :=
  match step.userInput with
  | none => ([], sentTexts)
  | some ui =>
    if ui.userResponse.getD "" = "" then ([], sentTexts)
    else if autoApproveTest (ui.userResponse.getD "") then ([], sentTexts)
    else
      let r := isTelegramSent (ui.userResponse.getD "") sentTexts
      if r.1 then ([], r.2)
      else ([⟨TrajectoryEventType.gui_message, ui.userResponse.getD "", now⟩], r.2)

/-- The fallback of `handleNotifyUser`: a message carried directly on the
`notifyUser` field. -/
def notifyUserDirect (now : Int) (step : TrajectoryStep) : List TrajectoryEvent :=
  match step.notifyUser with
  | some nu =>
    match nu.message with
    | some m => if m ≠ "" then [⟨TrajectoryEventType.agent_response, m, now⟩] else []
    | none => []
  | none => []

/-- `handleNotifyUser(step)`: extract the notify message from the
metadata tool call when present; on success emit `agent_response` and
stop; otherwise fall back to the direct `notifyUser.message` field. -/
def handleNotifyUser (now : Int) (step : TrajectoryStep) : List TrajectoryEvent :=
  match step.metadata with
  | some md =>
    match md.toolCall with
    | some tc =>
      if tc.name = "notify_user" ∧ tc.argumentsJson ≠ "" then
        match extractNotifyMessage tc.argumentsJson with
        | some message => [⟨TrajectoryEventType.agent_response, message, now⟩]
        | none => notifyUserDirect now step
      else notifyUserDirect now step
    | none => notifyUserDirect now step
  | none => notifyUserDirect now step

/-- The `handlePlannerResponse` tool-call loop: the message of the first
`notify_user` tool call whose payload extraction succeeds; a failed
extraction falls through to the remaining tool calls. -/
def findNotifyMessage : List ToolCall → Option String
  | [] => none
  | tc :: rest =>
    if tc.name = "notify_user" ∧ tc.argumentsJson ≠ "" then
      match extractNotifyMessage tc.argumentsJson with
      | some m => some m
      | none => findNotifyMessage rest
    else findNotifyMessage rest

/-- `handlePlannerResponse(step)`: a successfully extracted notify message
is emitted and suppresses the direct response text; otherwise the direct
`response` text is emitted when longer than 20 characters. -/
def handlePlannerResponse (now : Int) (step : TrajectoryStep) : List TrajectoryEvent :=
  match step.plannerResponse with
  | none => []
  | some pr =>
    match findNotifyMessage (pr.toolCalls.getD []) with
    | some m => [⟨TrajectoryEventType.agent_response, m, now⟩]
    | none =>
      match pr.response with
      | some r =>
        if r.length > 20 then [⟨TrajectoryEventType.agent_response, r, now⟩] else []
      | none => []

/-- `processNewSteps(steps)`: dispatch each step on its type tag, threading
the echo-suppressor log through the user-input handler. -/
def processNewSteps (now : Int) : List TrajectoryStep → List String →
    List TrajectoryEvent × List String
  | [], sentTexts => ([], sentTexts)
  | step :: rest, sentTexts =>
    let r :=
      if step.type = "CORTEX_STEP_TYPE_USER_INPUT" then
        handleUserInput now step sentTexts
      else if step.type = "CORTEX_STEP_TYPE_NOTIFY_USER" then
        (handleNotifyUser now step, sentTexts)
      else if step.type = "CORTEX_STEP_TYPE_PLANNER_RESPONSE" then
        (handlePlannerResponse now step, sentTexts)
      else ([], sentTexts)
    let rec2 := processNewSteps now rest r.2
    (r.1 ++ rec2.1, rec2.2)

/-- A notify-type step whose metadata carries a `notify_user` tool call
with the given argument payload and nothing else. -/
def mkNotifyToolStep (args : String) : TrajectoryStep :=
  { type := "CORTEX_STEP_TYPE_NOTIFY_USER",
    metadata := some { toolCall := some { name := "notify_user", argumentsJson := args } } }

/-- C6 counterexample: the key lookup is not case-insensitive — the payload
with key `MESSAGE` (upper-case) extracts nothing and yields no event,
while the spec's case-insensitive extraction would find "done". -/
theorem claim_C6_counterexample_uppercase_key :
    extractNotifyMessage "\x7b\"MESSAGE\": \"done\"\x7d" = none ∧
    extractNotifyMessageSpecCI "\x7b\"MESSAGE\": \"done\"\x7d" = some "done" ∧
    handleNotifyUser 0 (mkNotifyToolStep "\x7b\"MESSAGE\": \"done\"\x7d") = [] := by
  refine ⟨by decide, by decide, by decide⟩

/-- C6 (amended): the classifier parses the argumentsJson payload as
structured data and extracts the message field by exactly the two key
casings `Message` then `message` (not a fully case-insensitive key),
emitting an `agent_response` with that content; both
`\x7b"Message": "done"\x7d` and `\x7b"message": "done"\x7d` classify to
`agent_response` content "done", while an empty object or invalid JSON
yields no event and no exception (any payload whose extraction fails
yields no event from the tool-call path). -/
theorem claim_C6_notify_extraction (now : Int) :
    (∀ args : String, extractNotifyMessage args = none →
      handleNotifyUser now (mkNotifyToolStep args) = []) ∧
    handleNotifyUser now (mkNotifyToolStep "\x7b\"Message\": \"done\"\x7d") =
      [⟨TrajectoryEventType.agent_response, "done", now⟩] ∧
    handleNotifyUser now (mkNotifyToolStep "\x7b\"message\": \"done\"\x7d") =
      [⟨TrajectoryEventType.agent_response, "done", now⟩] ∧
    handleNotifyUser now (mkNotifyToolStep "\x7b\x7d") = [] ∧
    handleNotifyUser now (mkNotifyToolStep "not json") = [] := by
  refine ⟨?_, ?_, ?_, ?_, ?_⟩
  · intro args hfail
    by_cases hargs : args = ""
    · subst hargs
      simp [handleNotifyUser, mkNotifyToolStep, notifyUserDirect]
    · simp [handleNotifyUser, mkNotifyToolStep, notifyUserDirect, hargs, hfail]
  · have h : extractNotifyMessage "\x7b\"Message\": \"done\"\x7d" = some "done" := by decide
    simp [handleNotifyUser, mkNotifyToolStep, h]
  · have h : extractNotifyMessage "\x7b\"message\": \"done\"\x7d" = some "done" := by decide
    simp [handleNotifyUser, mkNotifyToolStep, h]
  · have h : extractNotifyMessage "\x7b\x7d" = none := by decide
    simp [handleNotifyUser, mkNotifyToolStep, notifyUserDirect, h]
  · have h : extractNotifyMessage "not json" = none := by decide
    simp [handleNotifyUser, mkNotifyToolStep, notifyUserDirect, h]

/-- Witness for C6 (amended) at a concrete failing payload. -/
theorem claim_C6_notify_extraction_witness :
    handleNotifyUser 7 (mkNotifyToolStep "oops") = [] :=
  (claim_C6_notify_extraction 7).1 "oops" (by decide)

/-- If every `notify_user` tool call in the list has a failing extraction,
the tool-call loop finds no message. -/
theorem findNotifyMessage_none (tcs : List ToolCall)
    (h : ∀ tc ∈ tcs, tc.name = "notify_user" → tc.argumentsJson ≠ "" →
      extractNotifyMessage tc.argumentsJson = none) :
    findNotifyMessage tcs = none := by
  induction tcs with
  | nil => rfl
  | cons tc rest ih =>
    have hrest := ih fun t ht => h t (List.mem_cons_of_mem tc ht)
    unfold findNotifyMessage
    by_cases hc : tc.name = "notify_user" ∧ tc.argumentsJson ≠ ""
    · rw [if_pos hc, h tc (List.mem_cons_self tc rest) hc.1 hc.2]
      exact hrest
    · rw [if_neg hc]
      exact hrest

/-- C9: For every planner-response step whose `notify_user` tool calls all
have unparseable (or Message/message-less) argument payloads, the
classifier does not treat the notify-tool as consumed: it falls through
and emits an `agent_response` with the step's direct response text exactly
when that text is longer than 20 characters. -/
theorem claim_C9_failed_notify_falls_through (now : Int) (step : TrajectoryStep)
    (pr : PlannerResponseInfo) (hpr : step.plannerResponse = some pr)
    (hfail : ∀ tc ∈ pr.toolCalls.getD [], tc.name = "notify_user" →
      tc.argumentsJson ≠ "" → extractNotifyMessage tc.argumentsJson = none) :
    (∀ r : String, pr.response = some r → r.length > 20 →
      handlePlannerResponse now step = [⟨TrajectoryEventType.agent_response, r, now⟩]) ∧
    (∀ r : String, pr.response = some r → r.length ≤ 20 →
      handlePlannerResponse now step = []) ∧
    (pr.response = none → handlePlannerResponse now step = []) := by
  have hnone := findNotifyMessage_none (pr.toolCalls.getD []) hfail
  refine ⟨?_, ?_, ?_⟩
  · intro r hr hlen
    simp [handlePlannerResponse, hpr, hnone, hr, hlen]
  · intro r hr hlen
    have : ¬ r.length > 20 := by omega
    simp [handlePlannerResponse, hpr, hnone, hr, this]
  · intro hr
    simp [handlePlannerResponse, hpr, hnone, hr]

/-- Witness for C9: a planner response with one broken `notify_user` tool
call and a 27-character direct reply emits that reply. -/
theorem claim_C9_failed_notify_falls_through_witness :
    handlePlannerResponse 3
      { type := "CORTEX_STEP_TYPE_PLANNER_RESPONSE",
        plannerResponse := some
          { response := some "This response has length 27",
            toolCalls := some [{ name := "notify_user", argumentsJson := "broken json" }] } } =
      [⟨TrajectoryEventType.agent_response, "This response has length 27", 3⟩] :=
  (claim_C9_failed_notify_falls_through 3
    { type := "CORTEX_STEP_TYPE_PLANNER_RESPONSE",
      plannerResponse := some
        { response := some "This response has length 27",
          toolCalls := some [{ name := "notify_user", argumentsJson := "broken json" }] } }
    { response := some "This response has length 27",
      toolCalls := some [{ name := "notify_user", argumentsJson := "broken json" }] }
    rfl (by decide)).1 "This response has length 27" rfl (by decide)

/-! ## Conversation summaries and the active-conversation selector -/

/-- A conversation summary (src/lsClient.ts TrajectorySummary), restricted
to the fields the monitor reads.  `lastModifiedTime` is modeled as the
epoch-millisecond value `new Date(s.lastModifiedTime).getTime()` the
selector compares; `workspaces` is the list of
`workspaceFolderAbsoluteUri` strings (a missing field is `[]`). -/
structure TrajectorySummary where
  stepCount : Nat := 0
  lastModifiedTime : Int := 0
  trajectoryId : String := ""
  status : String := ""
  workspaces : List String := []
deriving DecidableEq, Repr

/-- Insert an entry into a list sorted by `lastModifiedTime` descending. -/
def insertByTimeDesc (e : String × TrajectorySummary) :
    List (String × TrajectorySummary) → List (String × TrajectorySummary)
  | [] => [e]
  | x :: xs =>
    if e.2.lastModifiedTime > x.2.lastModifiedTime then e :: x :: xs
    else x :: insertByTimeDesc e xs

/-- The selector's `.sort((a, b) => timeOf(b) - timeOf(a))`: order by
`lastModifiedTime` descending (the source only reads element 0, an entry
of maximal time; the embedding realizes the sort as insertion sort). -/
def sortByTimeDesc : List (String × TrajectorySummary) → List (String × TrajectorySummary)
  | [] => []
  | e :: rest => insertByTimeDesc e (sortByTimeDesc rest)

/-- `findActiveCascade(summaries)`: (a) among the current-workspace
matches, the most recently modified; else (b) the first entry with
running status; else (c) the most recently modified entry overall. -/
def findActiveCascade (workspaceUri : String)
    (entries : List (String × TrajectorySummary)) :
    Option (String × TrajectorySummary) :=
  match entries with
  | [] => none
  | _ :: _ =>
    let wsPick : Option (String × TrajectorySummary) :=
      if workspaceUri ≠ "" then
        (sortByTimeDesc (entries.filter fun e =>
          e.2.workspaces.contains workspaceUri)).head?
      else none
    match wsPick with
    | some x => some x
    | none =>
      match entries.find? fun e => e.2.status == "CASCADE_RUN_STATUS_RUNNING" with
      | some r => some r
      | none => (sortByTimeDesc entries).head?

/-- Inserting never produces the empty list. -/
theorem insertByTimeDesc_ne_nil (e : String × TrajectorySummary)
    (l : List (String × TrajectorySummary)) : insertByTimeDesc e l ≠ [] := by
  cases l with
  | nil => simp [insertByTimeDesc]
  | cons x xs =>
    unfold insertByTimeDesc
    split <;> simp

/-- Membership is preserved by insertion. -/
theorem mem_insertByTimeDesc (y e : String × TrajectorySummary)
    (l : List (String × TrajectorySummary)) :
    y ∈ insertByTimeDesc e l ↔ y = e ∨ y ∈ l := by
  induction l with
  | nil => simp [insertByTimeDesc]
  | cons x xs ih =>
    unfold insertByTimeDesc
    split
    · exact List.mem_cons
    · rw [List.mem_cons, ih, List.mem_cons]
      tauto

/-- The head of the descending sort is an element of maximal
`lastModifiedTime`. -/
theorem sortByTimeDesc_head_max (l : List (String × TrajectorySummary)) :
    ∀ x rest, sortByTimeDesc l = x :: rest →
      x ∈ l ∧ ∀ y ∈ l, y.2.lastModifiedTime ≤ x.2.lastModifiedTime := by
  induction l with
  | nil => intro x rest h; simp [sortByTimeDesc] at h
  | cons e l ih =>
    intro x rest h
    unfold sortByTimeDesc at h
    cases hsort : sortByTimeDesc l with
    | nil =>
      rw [hsort] at h
      unfold insertByTimeDesc at h
      obtain ⟨hx, -⟩ := List.cons.injEq .. ▸ h
      have hl : l = [] := by
        cases l with
        | nil => rfl
        | cons a as =>
          exact absurd hsort (by
            unfold sortByTimeDesc
            exact insertByTimeDesc_ne_nil a (sortByTimeDesc as))
      subst hl
      constructor
      · simp [← hx]
      · intro y hy
        simp at hy
        simp [hy, ← hx]
    | cons z zs =>
      obtain ⟨hzmem, hzmax⟩ := ih z zs hsort
      rw [hsort] at h
      unfold insertByTimeDesc at h
      split at h
      · rename_i hgt
        obtain ⟨hx, -⟩ := List.cons.injEq .. ▸ h
        subst hx
        refine ⟨List.mem_cons_self .., ?_⟩
        intro y hy
        rcases List.mem_cons.mp hy with hy | hy
        · simp [hy]
        · exact le_of_lt (lt_of_le_of_lt (hzmax y hy) hgt)
      · rename_i hle
        obtain ⟨hx, -⟩ := List.cons.injEq .. ▸ h
        subst hx
        refine ⟨List.mem_cons_of_mem e hzmem, ?_⟩
        intro y hy
        rcases List.mem_cons.mp hy with hy | hy
        · simp [hy]; omega
        · exact hzmax y hy

/-- The descending sort of a nonempty list is nonempty. -/
theorem sortByTimeDesc_ne_nil (e : String × TrajectorySummary)
    (l : List (String × TrajectorySummary)) : sortByTimeDesc (e :: l) ≠ [] := by
  unfold sortByTimeDesc
  exact insertByTimeDesc_ne_nil e (sortByTimeDesc l)

/-- C4: For every non-empty summary map, `findActiveCascade` returns, in
priority order: (a) among the entries whose workspace set includes the
current workspace identifier, one of maximal `lastModifiedTime`; else
(b) an entry whose status equals running; else (c) an entry of maximal
`lastModifiedTime` overall.  In particular, with zero workspace-matching
entries and a running entry present, a running entry is chosen regardless
of modification times. -/
theorem claim_C4_active_selector (uri : String)
    (entries : List (String × TrajectorySummary))
    (hne : entries ≠ []) (huri : uri ≠ "") :
    ∃ e, findActiveCascade uri entries = some e ∧
      ((entries.filter fun x => x.2.workspaces.contains uri) ≠ [] →
        e ∈ entries.filter (fun x => x.2.workspaces.contains uri) ∧
        ∀ y ∈ entries.filter (fun x => x.2.workspaces.contains uri),
          y.2.lastModifiedTime ≤ e.2.lastModifiedTime) ∧
      ((entries.filter fun x => x.2.workspaces.contains uri) = [] →
        (∃ r ∈ entries, r.2.status = "CASCADE_RUN_STATUS_RUNNING") →
        e ∈ entries ∧ e.2.status = "CASCADE_RUN_STATUS_RUNNING") ∧
      ((entries.filter fun x => x.2.workspaces.contains uri) = [] →
        (∀ r ∈ entries, r.2.status ≠ "CASCADE_RUN_STATUS_RUNNING") →
        e ∈ entries ∧ ∀ y ∈ entries,
          y.2.lastModifiedTime ≤ e.2.lastModifiedTime) := by
  obtain ⟨e0, l0, rfl⟩ := List.exists_cons_of_ne_nil hne
  cases hfil : (e0 :: l0).filter fun x => x.2.workspaces.contains uri with
  | cons f fs =>
    cases hsort : sortByTimeDesc (f :: fs) with
    | nil => exact absurd hsort (sortByTimeDesc_ne_nil f fs)
    | cons x rest =>
      obtain ⟨hmem, hmax⟩ := sortByTimeDesc_head_max (f :: fs) x rest hsort
      refine ⟨x, ?_, ?_, ?_, ?_⟩
      · simp only [findActiveCascade, huri, if_true, ne_eq, not_false_iff, hfil, hsort]
        rfl
      · intro _
        exact ⟨hmem, hmax⟩
      · intro habs; exact absurd habs (by simp)
      · intro habs; exact absurd habs (by simp)
  | nil =>
    cases hfind : (e0 :: l0).find? fun e => e.2.status == "CASCADE_RUN_STATUS_RUNNING" with
    | some r =>
      refine ⟨r, ?_, ?_, ?_, ?_⟩
      · simp only [findActiveCascade, huri, if_true, ne_eq, not_false_iff, hfil, hfind]
        rfl
      · intro habs; exact absurd rfl habs
      · intro _ _
        refine ⟨List.mem_of_find?_eq_some hfind, ?_⟩
        have := List.find?_some hfind
        simpa using this
      · intro _ hnone
        have hmem := List.mem_of_find?_eq_some hfind
        have := List.find?_some hfind
        exact absurd (by simpa using this) (hnone r hmem)
    | none =>
      cases hsort : sortByTimeDesc (e0 :: l0) with
      | nil => exact absurd hsort (sortByTimeDesc_ne_nil e0 l0)
      | cons x rest =>
        obtain ⟨hmem, hmax⟩ := sortByTimeDesc_head_max (e0 :: l0) x rest hsort
        refine ⟨x, ?_, ?_, ?_, ?_⟩
        · simp only [findActiveCascade, huri, if_true, ne_eq, not_false_iff, hfil, hfind,
            hsort]
          rfl
        · intro habs; exact absurd rfl habs
        · intro _ hex
          obtain ⟨r, hrmem, hrstat⟩ := hex
          have := List.find?_eq_none.mp hfind r hrmem
          simp [hrstat] at this
        · intro _ _
          exact ⟨hmem, hmax⟩

/-- The concrete selector scenario from the claim: no workspace match, one
running entry older than a non-running one. -/
def entriesC4 : List (String × TrajectorySummary) :=
  [("a", { stepCount := 4, lastModifiedTime := 100, trajectoryId := "ta", status := "CASCADE_RUN_STATUS_IDLE" }),
   ("b", { stepCount := 2, lastModifiedTime := 50, trajectoryId := "tb", status := "CASCADE_RUN_STATUS_RUNNING" })]

/-- Witness for C4: on `entriesC4` the selector picks a running entry even
though the non-running one is more recently modified. -/
theorem claim_C4_active_selector_witness :
    ∃ e, findActiveCascade "file:///w" entriesC4 = some e ∧
      e.2.status = "CASCADE_RUN_STATUS_RUNNING" := by
  obtain ⟨e, he, -, h2, -⟩ :=
    claim_C4_active_selector "file:///w" entriesC4 (by decide) (by decide)
  obtain ⟨-, hstat⟩ := h2 (by decide)
    ⟨("b", { stepCount := 2, lastModifiedTime := 50, trajectoryId := "tb",
             status := "CASCADE_RUN_STATUS_RUNNING" }), by decide, by decide⟩
  exact ⟨e, he, hstat⟩

/-! ## Accept/reject of a waiting step (TrajectoryMonitor.acceptWaitingStep) -/

/-- A regex word character (`\w`). -/
def isWordChar (c : Char) : Bool := c.isAlphanum || c = '_'

/-- The search of `/CORTEX_STEP_TYPE_(\w+)/` over the type string: the
word-character run after the first occurrence of the literal that is
followed by at least one word character. -/
def typeGuessAux : List Char → Option (List Char)
  | [] => none
  | c :: rest =>
    if "CORTEX_STEP_TYPE_".data.isPrefixOf (c :: rest) then
      if ((c :: rest).drop "CORTEX_STEP_TYPE_".data.length).takeWhile isWordChar = [] then
        typeGuessAux rest
      else
        some (((c :: rest).drop "CORTEX_STEP_TYPE_".data.length).takeWhile isWordChar)
    else typeGuessAux rest

/-- `.replace(/_([a-z])/g, (_, c) => c.toUpperCase())` on a lower-cased
word: each underscore followed by a lower-case letter becomes that letter
upper-cased. -/
def camelize : List Char → List Char
  | [] => []
  | '_' :: c2 :: rest2 =>
    if 'a' ≤ c2 ∧ c2 ≤ 'z' then c2.toUpper :: camelize rest2
    else '_' :: camelize (c2 :: rest2)
  | c :: rest => c :: camelize rest

/-- The unknown-sub-kind fallback: derive a camel-cased interaction field
name from the step's type tag, if the type matches the pattern. -/
def typeGuess (type : String) : Option String :=
  (typeGuessAux type.data).map fun w => String.mk (camelize (w.map Char.toLower))

/-- The type-specific body of a `HandleCascadeUserInteraction` request:
which field is sent and with which polarity (`deploy` uses the inverted
`cancel` field, `filePermission` uses `allow`). -/
inductive InteractionBody where
  | runCommand (confirm : Bool) (proposedCommandLine submittedCommandLine : String)
  | openBrowserUrl (confirm : Bool)
  | executeBrowserJavascript (confirm : Bool)
  | captureBrowserScreenshot (confirm : Bool)
  | browserAction (confirm : Bool)
  | mcp (confirm : Bool)
  | readUrlContent (confirm : Bool)
  | sendCommandInput (confirm : Bool)
  | filePermission (allow : Bool)
  | runExtensionCode (confirm : Bool)
  | deploy (cancel : Bool)
  | openBrowserSetup (confirm : Bool)
  | confirmBrowserSetup (confirm : Bool)
  | guessed (field : String) (confirm : Bool)
deriving DecidableEq, Repr

/-- A `HandleCascadeUserInteraction` request body. -/
structure Interaction where
  trajectoryId : String
  stepIndex : Nat
  body : InteractionBody
deriving DecidableEq, Repr

/-- `buildInteraction(step, stepIndex, accept)`: the if-chain over the
step's optional sub-kind payloads, ending in the type-name guess; null
when nothing applies. -/
def buildInteraction (trajectoryId : String) (step : TrajectoryStep)
    (stepIndex : Nat) (accept : Bool) : Option Interaction :=
  let mk : InteractionBody → Option Interaction := fun b =>
    some { trajectoryId := trajectoryId, stepIndex := stepIndex, body := b }
  match step.runCommand with
  | some rc =>
    mk (InteractionBody.runCommand accept
      ((rc.commandLine.orElse fun _ => rc.command).getD "")
      ((rc.commandLine.orElse fun _ => rc.command).getD ""))
  | none =>
    if step.openBrowserUrl.isSome then mk (InteractionBody.openBrowserUrl accept)
    else if step.executeBrowserJavascript then mk (InteractionBody.executeBrowserJavascript accept)
    else if step.captureBrowserScreenshot then mk (InteractionBody.captureBrowserScreenshot accept)
    else if step.browserAction || step.browserSubagent then mk (InteractionBody.browserAction accept)
    else if step.mcp.isSome then mk (InteractionBody.mcp accept)
    else if step.readUrlContent.isSome then mk (InteractionBody.readUrlContent accept)
    else if step.sendCommandInput then mk (InteractionBody.sendCommandInput accept)
    else if step.filePermission.isSome then mk (InteractionBody.filePermission accept)
    else if step.runExtensionCode then mk (InteractionBody.runExtensionCode accept)
    else if step.deploy then mk (InteractionBody.deploy (!accept))
    else if step.openBrowserSetup then mk (InteractionBody.openBrowserSetup accept)
    else if step.confirmBrowserSetup then mk (InteractionBody.confirmBrowserSetup accept)
    else
      match typeGuess step.type with
      | some field => mk (InteractionBody.guessed field accept)
      | none => none

/-- The Trajectory Monitor's per-conversation mutable state. -/
structure MonitorState where
  activeCascadeId : String := ""
  activeTrajectoryId : String := ""
  lastStepCount : Nat := 0
  lastStatus : String := ""
  notifiedWaitingSteps : List Nat := []
  sentTexts : List String := []
deriving DecidableEq, Repr

/-- Pair each step of a fetched window with its absolute offset
(`absIdx = offset + i`). -/
def withAbsIdx (offset : Nat) : List TrajectoryStep → List (Nat × TrajectoryStep)
  | [] => []
  | s :: rest => (offset, s) :: withAbsIdx (offset + 1) rest

/-- The backwards scan of `acceptWaitingStep`: the most recent waiting
step for which an interaction can be built (a waiting step whose
interaction cannot be built is skipped and the scan continues). -/
def scanWaitingFromEnd (trajectoryId : String) (accept : Bool) :
    List (Nat × TrajectoryStep) → Option (Nat × Interaction)
  | [] => none
  | (absIdx, step) :: rest =>
    if isWaitingStatus step.status then
      match buildInteraction trajectoryId step absIdx accept with
      | some inter => some (absIdx, inter)
      | none => scanWaitingFromEnd trajectoryId accept rest
    else scanWaitingFromEnd trajectoryId accept rest

/-- `acceptWaitingStep(accept)`.  Per-tick host interaction results are
passed in: `summariesResult` is the `getAllTrajectories` result (`none` =
failure), `stepsFetch` the raw step fetch (`none` = network failure, which
`getTrajectorySteps` surfaces as `[]`), and `submitOk` the result of
`handleUserInteraction` if a submission is attempted.  Returns the
boolean result and the updated monitor state (the notified-step set loses
the resolved offset only on successful submission). -/
def acceptWaitingStep (st : MonitorState) (accept : Bool)
    (summariesResult : Option (List (String × TrajectorySummary)))
    (stepsFetch : Option (List TrajectoryStep)) (submitOk : Bool) :
    Bool × MonitorState :=
  if st.activeCascadeId = "" ∨ st.activeTrajectoryId = "" then (false, st)
  else
    match summariesResult with
    | none => (false, st)
    | some summaries =>
      match summaries.find? fun e => e.1 == st.activeCascadeId with
      | none => (false, st)
      | some found =>
        if found.2.stepCount = 0 then (false, st)
        else
          match scanWaitingFromEnd st.activeTrajectoryId accept
            ((withAbsIdx (found.2.stepCount - 20) (stepsFetch.getD [])).reverse) with
          | none => (false, st)
          | some (absIdx, _inter) =>
            if submitOk then
              (true, { st with notifiedWaitingSteps := st.notifiedWaitingSteps.erase absIdx })
            else (false, st)

/-- A pair produced by `withAbsIdx` carries a step of the original list. -/
theorem mem_withAbsIdx (p : Nat × TrajectoryStep) :
    ∀ (offset : Nat) (steps : List TrajectoryStep),
      p ∈ withAbsIdx offset steps → p.2 ∈ steps := by
  intro offset steps
  induction steps generalizing offset with
  | nil => intro h; simp [withAbsIdx] at h
  | cons s rest ih =>
    intro h
    unfold withAbsIdx at h
    rcases List.mem_cons.mp h with h | h
    · subst h; exact List.mem_cons_self ..
    · exact List.mem_cons_of_mem s (ih _ h)

/-- If no indexed step is waiting, the backwards scan finds nothing. -/
theorem scanWaitingFromEnd_none (trajectoryId : String) (accept : Bool)
    (l : List (Nat × TrajectoryStep))
    (h : ∀ p ∈ l, isWaitingStatus p.2.status = false) :
    scanWaitingFromEnd trajectoryId accept l = none := by
  induction l with
  | nil => rfl
  | cons p rest ih =>
    obtain ⟨absIdx, step⟩ := p
    unfold scanWaitingFromEnd
    rw [h (absIdx, step) (List.mem_cons_self ..)]
    simp only [Bool.false_eq_true, if_false]
    exact ih fun q hq => h q (List.mem_cons_of_mem _ hq)

/-- C7: For every active conversation whose fetched recent step window
contains no step in the waiting status, `acceptWaitingStep` returns false
and leaves the notified-step set and all other monitor state unchanged;
the same holds whenever submission of the interaction fails. -/
theorem claim_C7_accept_no_side_effects (st : MonitorState) (accept : Bool)
    (summariesResult : Option (List (String × TrajectorySummary)))
    (stepsFetch : Option (List TrajectoryStep)) (submitOk : Bool) :
    ((∀ s ∈ stepsFetch.getD [], isWaitingStatus s.status = false) →
      acceptWaitingStep st accept summariesResult stepsFetch submitOk = (false, st)) ∧
    (submitOk = false →
      acceptWaitingStep st accept summariesResult stepsFetch submitOk = (false, st)) := by
  constructor
  · intro hno
    unfold acceptWaitingStep
    split
    · rfl
    · split
      · rfl
      · split
        · rfl
        · split
          · rfl
          · rename_i summaries found _ _
            have hscan : scanWaitingFromEnd st.activeTrajectoryId accept
                ((withAbsIdx (found.2.stepCount - 20) (stepsFetch.getD [])).reverse) =
                none := by
              refine scanWaitingFromEnd_none _ _ _ fun p hp => ?_
              exact hno p.2 (mem_withAbsIdx p _ _ (List.mem_reverse.mp hp))
            rw [hscan]
  · intro hsub
    subst hsub
    unfold acceptWaitingStep
    split
    · rfl
    · split
      · rfl
      · split
        · rfl
        · split
          · rfl
          · split
            · rfl
            · rfl

/-- Witness for C7: a concrete window with one non-waiting step leaves the
monitor state untouched. -/
theorem claim_C7_accept_no_side_effects_witness :
    acceptWaitingStep
      { activeCascadeId := "c", activeTrajectoryId := "t", lastStepCount := 5,
        notifiedWaitingSteps := [3] }
      true
      (some [("c", { stepCount := 5, trajectoryId := "t" })])
      (some [{ type := "CORTEX_STEP_TYPE_PLANNER_RESPONSE",
               status := "CORTEX_STEP_STATUS_DONE" }])
      true =
    (false,
      { activeCascadeId := "c", activeTrajectoryId := "t", lastStepCount := 5,
        notifiedWaitingSteps := [3] }) :=
  (claim_C7_accept_no_side_effects
    { activeCascadeId := "c", activeTrajectoryId := "t", lastStepCount := 5,
      notifiedWaitingSteps := [3] }
    true
    (some [("c", { stepCount := 5, trajectoryId := "t" })])
    (some [{ type := "CORTEX_STEP_TYPE_PLANNER_RESPONSE",
             status := "CORTEX_STEP_STATUS_DONE" }])
    true).1 (by decide)

/-! ## The poll tick (TrajectoryMonitor.poll) -/

/-- `describeWaitingStep(step)`: the human-readable description emitted
with a `step_request`. -/
def describeWaitingStep (step : TrajectoryStep) : String :=
  match step.runCommand with
  | some rc =>
    "터미널 명령 실행 요청: " ++ ((rc.commandLine.orElse fun _ => rc.command).getD "unknown")
  | none =>
    match step.openBrowserUrl with
    | some ob => "브라우저 URL 열기 요청: " ++ ob.url.getD ""
    | none =>
      match step.mcp with
      | some m =>
        "MCP 도구 실행 요청: " ++
          (((m.toolName.orElse fun _ => m.name).orElse fun _ => m.serverName).getD "unknown")
      | none =>
        match step.filePermission with
        | some fp =>
          "파일 접근 권한 요청: " ++ ((fp.absolutePathUri.orElse fun _ => fp.path).getD "")
        | none =>
          if step.executeBrowserJavascript then "브라우저 JavaScript 실행 요청"
          else if step.captureBrowserScreenshot then "브라우저 스크린샷 캡처 요청"
          else if step.browserAction || step.browserSubagent then "브라우저 액션 실행 요청"
          else if step.sendCommandInput then "터미널 입력 전송 요청"
          else
            match step.readUrlContent with
            | some ru => "URL 콘텐츠 읽기 요청: " ++ ru.url.getD ""
            | none =>
              if step.deploy then "배포 요청"
              else "에이전트가 권한 요청 중 — 수락 또는 거부가 필요합니다"

/-- The waiting-step loop of `poll`: over the indexed new steps, emit one
`step_request` per waiting step whose absolute offset is not yet in the
notified set, adding the offset to the set. -/
def detectWaiting (now : Int) : List (Nat × TrajectoryStep) → List Nat →
    List TrajectoryEvent × List Nat
  | [], notified => ([], notified)
  | (absIdx, step) :: rest, notified =>
    if isWaitingStatus step.status && !(notified.contains absIdx) then
      let r := detectWaiting now rest (notified ++ [absIdx])
      (⟨TrajectoryEventType.step_request, describeWaitingStep step, now⟩ :: r.1, r.2)
    else detectWaiting now rest notified

/-- One tick of `poll()` on a discovered language server, given the
per-tick host results: `summariesResult` is the `getAllTrajectories`
result (`none` = failed call), and `stepsFetch` the raw
`GetCascadeTrajectorySteps` result for the window starting at the current
baseline (`none` = failed network call, which `getTrajectorySteps`
surfaces to the caller as the empty list).  Returns the updated monitor
state and the emitted events. -/
def poll (workspaceUri : String) (now : Int) (st : MonitorState)
    (summariesResult : Option (List (String × TrajectorySummary)))
    (stepsFetch : Option (List TrajectoryStep)) :
    MonitorState × List TrajectoryEvent :=
  match summariesResult with
  | none => (st, [])
  | some summaries =>
    match findActiveCascade workspaceUri summaries with
    | none => (st, [])
    | some (cascadeId, summary) =>
      if cascadeId ≠ st.activeCascadeId then
        ({ st with
            activeCascadeId := cascadeId,
            activeTrajectoryId := summary.trajectoryId,
            lastStepCount := summary.stepCount,
            lastStatus := summary.status,
            notifiedWaitingSteps := [] }, [])
      else
        if summary.stepCount > st.lastStepCount then
          if (stepsFetch.getD []).length > 0 then
            let processed := processNewSteps now (stepsFetch.getD []) st.sentTexts
            let waiting := detectWaiting now
              (withAbsIdx st.lastStepCount (stepsFetch.getD [])) st.notifiedWaitingSteps
            ({ st with
                activeTrajectoryId := summary.trajectoryId,
                lastStatus := summary.status,
                lastStepCount := summary.stepCount,
                sentTexts := processed.2,
                notifiedWaitingSteps := waiting.2 }, processed.1 ++ waiting.1)
          else
            ({ st with
                activeTrajectoryId := summary.trajectoryId,
                lastStatus := summary.status,
                lastStepCount := summary.stepCount }, [])
        else
          ({ st with
              activeTrajectoryId := summary.trajectoryId,
              lastStatus := summary.status }, [])

/-- A same-cascade monitor state with baseline 1. -/
def pollFailState : MonitorState :=
  { activeCascadeId := "c", activeTrajectoryId := "t", lastStepCount := 1 }

/-- A summary map whose active entry reports three steps. -/
def pollFailSummaries : List (String × TrajectorySummary) :=
  [("c", { stepCount := 3, trajectoryId := "t", status := "CASCADE_RUN_STATUS_RUNNING" })]

/-- C1 counterexample: with baseline 1 and a summary reporting 3 steps, a
failed per-poll step fetch (which `getTrajectorySteps` surfaces as an
empty list) still advances `lastStepCount` to 3 — the prior baseline is
NOT preserved, so the steps in [1, 3) are never classified. -/
theorem claim_C1_counterexample_fetch_failure_advances :
    (poll "" 0 pollFailState (some pollFailSummaries) none).1.lastStepCount = 3 ∧
    pollFailState.lastStepCount = 1 := by
  refine ⟨by decide, by decide⟩

/-- C1 (amended): within one poll of the same active conversation, new
steps are fetched in a single call starting at the baseline offset and
classified in increasing offset order (the waiting offsets newly added to
the notified set are strictly increasing within the fetched window and
were not already notified); a failed summaries fetch skips the tick with
no mutation; but a failed per-poll step fetch does NOT preserve the
baseline: `lastStepCount` is still advanced to the summary's step count
(with no events emitted and the notified set and echo log unchanged). -/
theorem claim_C1_poll_order_and_baseline (workspaceUri : String) (now : Int)
    (st : MonitorState) :
    (∀ stepsFetch, poll workspaceUri now st none stepsFetch = (st, [])) ∧
    (∀ (summaries : List (String × TrajectorySummary)) (summary : TrajectorySummary),
      findActiveCascade workspaceUri summaries = some (st.activeCascadeId, summary) →
      summary.stepCount > st.lastStepCount →
      poll workspaceUri now st (some summaries) none =
        ({ st with
            activeTrajectoryId := summary.trajectoryId,
            lastStatus := summary.status,
            lastStepCount := summary.stepCount }, [])) ∧
    (∀ (offset : Nat) (steps : List TrajectoryStep) (notified : List Nat),
      ∃ added : List Nat,
        (detectWaiting now (withAbsIdx offset steps) notified).2 = notified ++ added ∧
        added.Pairwise (· < ·) ∧
        ∀ a ∈ added, offset ≤ a ∧ a < offset + steps.length ∧ a ∉ notified) := by
  refine ⟨fun stepsFetch => rfl, ?_, ?_⟩
  · intro summaries summary hfind hnew
    simp only [poll, hfind]
    rw [if_neg (by simp)]
    rw [if_pos hnew]
    simp
  · intro offset steps
    induction steps generalizing offset with
    | nil =>
      intro notified
      exact ⟨[], by simp [withAbsIdx, detectWaiting], List.Pairwise.nil, by simp⟩
    | cons s rest ih =>
      intro notified
      simp only [withAbsIdx, detectWaiting]
      by_cases hcond : (isWaitingStatus s.status && !(notified.contains offset)) = true
      · obtain ⟨added', heq, hpw, hbound⟩ := ih (offset + 1) (notified ++ [offset])
        rw [hcond]
        refine ⟨offset :: added', ?_, ?_, ?_⟩
        · simp only [if_true]
          rw [heq, List.append_assoc]
          rfl
        · refine List.Pairwise.cons ?_ hpw
          intro a ha
          have := (hbound a ha).1
          omega
        · intro a ha
          rcases List.mem_cons.mp ha with ha | ha
          · have hc : notified.contains offset = false := by
              rcases Bool.and_eq_true .. |>.mp hcond with ⟨-, h2⟩
              simpa using h2
            refine ⟨by omega, by simp; omega, ?_⟩
            rw [ha]
            simpa using hc
          · obtain ⟨h1, h2, h3⟩ := hbound a ha
            refine ⟨by omega, by simp; omega, ?_⟩
            intro hmem
            exact h3 (by simp [hmem])
      · obtain ⟨added', heq, hpw, hbound⟩ := ih (offset + 1) notified
        rw [Bool.not_eq_true] at hcond
        rw [hcond]
        simp only [Bool.false_eq_true, if_false]
        refine ⟨added', heq, hpw, ?_⟩
        intro a ha
        obtain ⟨h1, h2, h3⟩ := hbound a ha
        exact ⟨by omega, by simp; omega, h3⟩

/-- Witness for C1 (amended): the concrete failed step fetch advances the
baseline to 3 and emits nothing. -/
theorem claim_C1_poll_order_and_baseline_witness :
    poll "" 0 pollFailState (some pollFailSummaries) none =
      ({ activeCascadeId := "c", activeTrajectoryId := "t", lastStepCount := 3,
         lastStatus := "CASCADE_RUN_STATUS_RUNNING", notifiedWaitingSteps := [],
         sentTexts := [] }, []) :=
  (claim_C1_poll_order_and_baseline "" 0 pollFailState).2.1 pollFailSummaries
    { stepCount := 3, trajectoryId := "t", status := "CASCADE_RUN_STATUS_RUNNING" }
    (by decide) (by decide)

end TeleAntig
